import Mathlib

/-!
Shallow embedding of `src/metadata/controllers/submission.py` from the
arxiv-submission-api repository: the identity resolver `_get_agents`, the
update compiler `_update_submission`, and the three controller operations
`create_submission`, `update_submission`, `get_submission`.

Python dicts become association lists or structures with `Option` fields
(a `none` field models an absent key); a Python `KeyError` raised by a
`d[k]` subscript becomes an `Except` error; the external event store
(`ev.save` / `ev.load`) becomes an oracle function passed to each
controller; raising a werkzeug HTTP exception becomes returning an
`Except.error`; the logger becomes an explicit list of emitted log lines.
-/

namespace ArxivSubmissionApi

/-- Modelled from the spec: `ev.User` lives in the external `events` package
(not under `src/`).  Per spec section 3 an actor has a stable identifier, an
optional contact address and optional endorsements; the delegation call site
`ev.User(on_behalf_of, '', '')` passes a third positional string, modelled
here as `forename`. -/
structure User where
  native_id : String
  email : String := ""
  forename : String := ""
  endorsements : List (String × String) := []
deriving DecidableEq, Repr

/-- Modelled from the spec: `ev.Client` of the external `events` package, the
calling application, carrying a stable identifier. -/
structure Client where
  native_id : String
deriving DecidableEq, Repr

/-- The attribution triple packed by `_update_submission` into the `agents`
dict (`dict(creator=creator, client=client, proxy=proxy)`). -/
structure Agents where
  creator : User
  client : Client
  proxy : Option User
deriving DecidableEq, Repr

/-- The `license` value of the update document: `name` read with `.get`
(optional) and `uri` read with a raw subscript (absent key raises
`KeyError`). -/
structure LicenseData where
  name : Option String := none
  uri : Option String := none
deriving DecidableEq, Repr

/-- A classification value `{'category': ...}`; an absent `category` key
raises `KeyError` at the subscript in the source. -/
structure ClassificationData where
  category : Option String := none
deriving DecidableEq, Repr

/-- One author mapping of `metadata.authors`.  `order` is `none` when the
input mapping lacks the `order` key; the source mutates the mapping in place
(`au['order'] = i`) when it is absent. -/
structure AuthorData where
  forename : Option String := none
  surname : Option String := none
  email : Option String := none
  order : Option Nat := none
deriving DecidableEq, Repr

/-- The `metadata` value of the update document: its scalar entries as an
association list (a Python dict has unique keys) plus the optional
`authors` sequence. -/
structure MetadataData where
  fields : List (String × String) := []
  authors : Option (List AuthorData) := none
deriving DecidableEq, Repr

/-- The deserialized update document handled by `_update_submission`.  Each
`Option`/defaulted field models presence of the corresponding top-level key;
unknown top-level keys are ignored by the source, so they need no
representation. -/
structure Document where
  submitter_is_author : Option Bool := none
  license : Option LicenseData := none
  submitter_accepts_policy : Option Bool := none
  primary_classification : Option ClassificationData := none
  secondary_classification : List ClassificationData := []
  metadata : Option MetadataData := none
deriving DecidableEq, Repr

/-- Kind-specific payload of the domain events instantiated by the
controllers (`ev.CreateSubmission`, `ev.AssertAuthorship`, ...). -/
inductive EventKind where
  | createSubmission
  | assertAuthorship (submitter_is_author : Bool)
  | selectLicense (license_name : Option String) (license_uri : String)
  | acceptPolicy
  | setPrimaryClassification (category : String)
  | addSecondaryClassification (category : String)
  | updateMetadata (metadata : List (String × String))
  | updateAuthors (authors : List AuthorData)
deriving DecidableEq, Repr

/-- A domain event: every instantiation in the source passes the `agents`
dict plus a kind-specific payload. -/
structure Event where
  agents : Agents
  kind : EventKind
deriving DecidableEq, Repr

/-- A Python exception escaping `_update_submission`: the only raise sites
are dict subscripts on absent keys, i.e. `KeyError`. -/
inductive PyErr where
  | keyError (key : String)
deriving DecidableEq, Repr

/-- Modelled from the spec: `ev.UpdateMetadata.FIELDS`, the fixed
recognized-field allow-list of the external `events` package (spec section 3:
title, abstract, comments, DOI, journal reference, MSC/ACM classification
codes). -/
def FIELDS : List String :=
  ["title", "abstract", "comments", "doi", "journal_ref", "msc_class",
   "acm_class"]

/-- The metadata loop of `_update_submission`: iterate over
`ev.UpdateMetadata.FIELDS`, skip keys absent from `data['metadata']`, and
collect `(key, value)` pairs in allow-list order. -/
def metadataPairs (fields : List (String × String)) :
    List (String × String) :=
  FIELDS.filterMap (fun key => (fields.lookup key).map (fun v => (key, v)))

/-- The authors loop of `_update_submission`: for each author at index `i`,
set `au['order'] = i` when the `order` key is absent (mutating the input
mapping), leaving a given `order` unchanged. -/
def assignOrders (authors : List AuthorData) : List AuthorData :=
  authors.enum.map (fun p =>
    match p.2.order with
    | none => { p.2 with order := some p.1 }
    | some _ => p.2)

/-- The `'license' in data` block: `SelectLicense` with optional name and
required uri; an absent `uri` key raises `KeyError('uri')`. -/
def licenseEvents (agents : Agents) :
    Option LicenseData → Except PyErr (List Event)
  | none => .ok []
  | some lic =>
    match lic.uri with
    | none => .error (.keyError "uri")
    | some uri => .ok [⟨agents, .selectLicense lic.name uri⟩]

/-- The `'primary_classification' in data` block: read
`data['primary_classification']['category']` (absent key raises `KeyError`)
and emit `SetPrimaryClassification`. -/
def primaryEvents (agents : Agents) :
    Option ClassificationData → Except PyErr (List Event)
  | none => .ok []
  | some c =>
    match c.category with
    | none => .error (.keyError "category")
    | some cat => .ok [⟨agents, .setPrimaryClassification cat⟩]

/-- The `secondary_classification` loop: one `AddSecondaryClassification`
per entry, in input order; each subscript `classification_datum['category']`
may raise `KeyError`. -/
def secondaryEvents (agents : Agents) :
    List ClassificationData → Except PyErr (List Event)
  | [] => .ok []
  | c :: rest =>
    match c.category with
    | none => .error (.keyError "category")
    | some cat => do
      let evs ← secondaryEvents agents rest
      return ⟨agents, .addSecondaryClassification cat⟩ :: evs

/-- The `'metadata' in data` block: one `UpdateMetadata` event (always, when
the key is present), then one `UpdateAuthors` event when
`metadata.authors` is present.  Returns the events together with the
post-state of the `metadata` value, whose author mappings the source mutated
in place. -/
def metadataEvents (agents : Agents) :
    Option MetadataData → List Event × Option MetadataData
  | none => ([], none)
  | some md =>
    let updateMd : Event := ⟨agents, .updateMetadata (metadataPairs md.fields)⟩
    match md.authors with
    | none => ([updateMd], some md)
    | some authors =>
      let newAuthors := assignOrders authors
      ([updateMd, ⟨agents, .updateAuthors newAuthors⟩],
       some { md with authors := some newAuthors })

/-- `_update_submission(data, creator, client, proxy)`: compile the update
document into the ordered event list, block by block in source order.
Returns the post-state of the document alongside the events, because the
authors loop mutates the input document's author mappings. -/
def _update_submission (data : Document) (creator : User) (client : Client)
    (proxy : Option User := none) :
    Except PyErr (List Event × Document) := do
  let agents : Agents := ⟨creator, client, proxy⟩
  let evsAuthorship : List Event :=
    match data.submitter_is_author with
    | some b => [⟨agents, .assertAuthorship b⟩]
    | none => []
  let evsLicense ← licenseEvents agents data.license
  let evsPolicy : List Event :=
    match data.submitter_accepts_policy with
    | some true => [⟨agents, .acceptPolicy⟩]
    | _ => []
  let evsPrimary ← primaryEvents agents data.primary_classification
  let evsSecondary ← secondaryEvents agents data.secondary_classification
  let (evsMetadata, newMetadata) := metadataEvents agents data.metadata
  return (evsAuthorship ++ evsLicense ++ evsPolicy ++ evsPrimary ++
            evsSecondary ++ evsMetadata,
          { data with metadata := newMetadata })

/-- The `user_data` dict handed to the controllers: `user_id` and `email`
are read by `_get_agents`. -/
structure UserData where
  user_id : String
  email : String
deriving DecidableEq, Repr

/-- The `client_data` dict handed to the controllers: `client_id` is read by
`_get_agents`. -/
structure ClientData where
  client_id : String
deriving DecidableEq, Repr

/-- `_get_agents(headers, user_data, client_data)`: build the authenticated
user and the client; when the `X-On-Behalf-Of` header carries a value, the
authenticated user becomes the proxy and a fresh
`ev.User(on_behalf_of, '', '')` becomes the acting user. -/
def _get_agents (headers : List (String × String)) (user_data : UserData)
    (client_data : ClientData) : User × Client × Option User :=
  let user : User := { native_id := user_data.user_id, email := user_data.email }
  let client : Client := { native_id := client_data.client_id }
  match headers.lookup "X-On-Behalf-Of" with
  | some on_behalf_of =>
    ({ native_id := on_behalf_of, email := "", forename := "" }, client,
     some user)
  | none => (user, client, none)

/-- Modelled from the spec: the materialized read model returned by the
external event store; the controllers only read `submission_id` and call
`to_dict` on it. -/
structure Submission where
  submission_id : String
  dict : List (String × String)
deriving DecidableEq, Repr

/-- `Submission.to_dict()`: the response body built from the store's
returned representation. -/
def Submission.to_dict (s : Submission) : List (String × String) := s.dict

/-- An exception raised by a call into the external `events` store
(`ev.save` / `ev.load`): one of the three recognized kinds, or any other
exception type carrying its type name and message. -/
inductive StoreExc where
  | invalidEvent (msg : String)
  | saveError (msg : String)
  | noSuchSubmission (msg : String)
  | other (tyName : String) (msg : String)
deriving DecidableEq, Repr

/-- `str(type(e))` of a store exception, as recorded by the log line. -/
def StoreExc.typeName : StoreExc → String
  | invalidEvent _ => "InvalidEvent"
  | saveError _ => "SaveError"
  | noSuchSubmission _ => "NoSuchSubmission"
  | other t _ => t

/-- `str(e)` of a store exception. -/
def StoreExc.message : StoreExc → String
  | invalidEvent m => m
  | saveError m => m
  | noSuchSubmission m => m
  | other _ m => m

/-- Outcome of one call into the store: the `(submission, events)` pair on
success, or a raised exception. -/
inductive StoreResult where
  | ok (submission : Submission) (events : List Event)
  | exc (e : StoreExc)
deriving DecidableEq, Repr

/-- A werkzeug HTTP exception raised by a controller. -/
inductive HTTPError where
  | notFound (description : String)
  | badRequest (description : String)
  | internalServerError (description : String)
deriving DecidableEq, Repr

/-- The `Response` alias of the source: `(dict, int, dict)` — body, HTTP
status code, response headers. -/
abbrev Response := List (String × String) × Nat × List (String × String)

/-- A controller outcome: the returned response or the raised HTTP
exception, paired with the log lines emitted via `logger.error`. -/
abbrev ControllerResult := Except HTTPError Response × List String

/-- The `logger.error('Unhandled exception: (%s) %s', ...)` line of the
generic exception handlers. -/
def logLine (tyName msg : String) : String :=
  "Unhandled exception: (" ++ tyName ++ ") " ++ msg

/-- Modelled from the spec: Flask's `url_for`, building the canonical
reference to a submission resource from a route name and the submission
identifier. -/
def url_for (route : String) (submission_id : String) : String :=
  route ++ "/" ++ submission_id

/-- Modelled from the spec: the `url_for` call of `update_submission`, which
additionally passes `creator=user` to a differently named route. -/
def url_for_submit (creator : User) (submission_id : String) : String :=
  "submit.get_submission/" ++ creator.native_id ++ "/" ++ submission_id

/-- The full ordered event list `create_submission` passes to `ev.save`:
a `CreateSubmission(creator, client, proxy)` event followed by the compiled
events of `_update_submission`. -/
def create_event_list (data : Document) (user : User) (client : Client)
    (proxy : Option User) : Except PyErr (List Event) :=
  (_update_submission data user client proxy).map
    (fun r => Event.mk ⟨user, client, proxy⟩ .createSubmission :: r.1)

/-- `create_submission(data, headers, user_data, client_data, token)`:
resolve agents, compile, submit `CreateSubmission` plus the compiled events
to the store, and translate the outcome.  `save` is the external
`ev.save`.  A `KeyError` escaping `_update_submission` is caught by the
controller's generic `except Exception` handler. -/
def create_submission (save : List Event → StoreResult) (data : Document)
    (headers : List (String × String)) (user_data : UserData)
    (client_data : ClientData) (token : String) : ControllerResult :=
  let (user, client, proxy) := _get_agents headers user_data client_data
  match create_event_list data user client proxy with
  | .error (.keyError k) =>
    (.error (.internalServerError "Encountered unhandled exception"),
     [logLine "KeyError" k])
  | .ok evs =>
    match save evs with
    | .ok submission _events =>
      (.ok (submission.to_dict, 201,
            [("Location",
              url_for "submission.get_submission" submission.submission_id)]),
       [])
    | .exc (.invalidEvent msg) => (.error (.internalServerError msg), [])
    | .exc (.saveError msg) =>
      (.error (.internalServerError
         ("Problem interacting with database: " ++ msg)), [])
    | .exc e =>
      (.error (.internalServerError "Encountered unhandled exception"),
       [logLine e.typeName e.message])

/-- `get_submission(submission_id, user, client, token)`: load the current
state from the store (`load` is the external `ev.load`); `user`, `client`
and `token` are accepted but unused by the source. -/
def get_submission (load : String → StoreResult) (submission_id : String)
    (user : Option String := none) (client : Option String := none)
    (token : Option String := none) : ControllerResult :=
  match load submission_id with
  | .ok submission _events => (.ok (submission.to_dict, 200, []), [])
  | .exc (.noSuchSubmission _) => (.error (.notFound "Submission not found"), [])
  | .exc e =>
    (.error (.internalServerError "Encountered unhandled exception"),
     [logLine e.typeName e.message])

/-- `update_submission(data, headers, user_data, client_data, token,
submission_id)`: resolve agents, compile, submit the compiled events against
the existing submission id, and translate the outcome.  `save` is the
external `ev.save(..., submission_id=...)`. -/
def update_submission (save : List Event → String → StoreResult)
    (data : Document) (headers : List (String × String))
    (user_data : UserData) (client_data : ClientData) (token : String)
    (submission_id : String) : ControllerResult :=
  let (user, client, proxy) := _get_agents headers user_data client_data
  match _update_submission data user client proxy with
  | .error (.keyError k) =>
    (.error (.internalServerError "Encountered unhandled exception"),
     [logLine "KeyError" k])
  | .ok (evs, _) =>
    match save evs submission_id with
    | .ok submission _events =>
      (.ok (submission.to_dict, 200,
            [("Location", url_for_submit user submission.submission_id)]),
       [])
    | .exc (.noSuchSubmission _) =>
      (.error (.notFound ("No submission found with id " ++ submission_id)),
       [])
    | .exc (.invalidEvent msg) => (.error (.internalServerError msg), [])
    | .exc (.saveError _) =>
      (.error (.internalServerError "Problem interacting with database"), [])
    | .exc (.other tyName msg) =>
      (.error (.internalServerError "Encountered unhandled exception"),
       [logLine tyName msg])

/-- Whether an event is an `UpdateMetadata` event. -/
def Event.isUpdateMetadata (e : Event) : Bool :=
  match e.kind with
  | .updateMetadata _ => true
  | _ => false

/-- Whether an event is an `UpdateAuthors` event. -/
def Event.isUpdateAuthors (e : Event) : Bool :=
  match e.kind with
  | .updateAuthors _ => true
  | _ => false

/-- Example fixture: the authenticated user of the repository's tests. -/
def exUser : User := { native_id := "1234", email := "foo@bar.baz" }

/-- Example fixture: the calling application of the repository's tests. -/
def exClient : Client := { native_id := "5678" }

/-- Example fixture: the undelegated attribution triple. -/
def exAgents : Agents := ⟨exUser, exClient, none⟩

/-! ## Helper lemmas -/

theorem _update_submission_ok {data : Document} {u : User} {c : Client}
    {p : Option User} {evs : List Event} {d2 : Document}
    (h : _update_submission data u c p = .ok (evs, d2)) :
    ∃ evsL evsP evsS,
      licenseEvents ⟨u, c, p⟩ data.license = .ok evsL ∧
      primaryEvents ⟨u, c, p⟩ data.primary_classification = .ok evsP ∧
      secondaryEvents ⟨u, c, p⟩ data.secondary_classification = .ok evsS ∧
      evs =
        (match data.submitter_is_author with
         | some b => [⟨⟨u, c, p⟩, .assertAuthorship b⟩]
         | none => ([] : List Event)) ++ evsL ++
        (match data.submitter_accepts_policy with
         | some true => [⟨⟨u, c, p⟩, .acceptPolicy⟩]
         | _ => ([] : List Event)) ++ evsP ++ evsS ++
        (metadataEvents ⟨u, c, p⟩ data.metadata).1 ∧
      d2 = { data with metadata := (metadataEvents ⟨u, c, p⟩ data.metadata).2 } := by
  unfold _update_submission at h
  simp only [Bind.bind, Except.bind] at h
  cases hL : licenseEvents ⟨u, c, p⟩ data.license with
  | error e => rw [hL] at h; simp at h
  | ok evsL =>
    rw [hL] at h
    cases hP : primaryEvents ⟨u, c, p⟩ data.primary_classification with
    | error e => rw [hP] at h; simp at h
    | ok evsP =>
      rw [hP] at h
      cases hS : secondaryEvents ⟨u, c, p⟩ data.secondary_classification with
      | error e => rw [hS] at h; simp at h
      | ok evsS =>
        rw [hS] at h
        simp only [Pure.pure, Except.pure, Except.ok.injEq, Prod.mk.injEq] at h
        exact ⟨evsL, evsP, evsS, rfl, rfl, rfl, h.1.symm, h.2.symm⟩

theorem authorship_block_spec (a : Agents) (o : Option Bool) :
    ∀ e ∈ ((match o with
            | some b => [Event.mk a (.assertAuthorship b)]
            | none => []) : List Event),
      e.agents = a ∧ e.isUpdateAuthors = false ∧ e.isUpdateMetadata = false := by
  cases o <;> simp [Event.isUpdateAuthors, Event.isUpdateMetadata]

theorem policy_block_spec (a : Agents) (o : Option Bool) :
    ∀ e ∈ ((match o with
            | some true => [Event.mk a .acceptPolicy]
            | _ => []) : List Event),
      e.agents = a ∧ e.isUpdateAuthors = false ∧ e.isUpdateMetadata = false := by
  rcases o with _ | _ | _ <;>
    simp [Event.isUpdateAuthors, Event.isUpdateMetadata]

theorem licenseEvents_ok {a : Agents} {lo : Option LicenseData}
    {evs : List Event} (h : licenseEvents a lo = .ok evs) :
    ∀ e ∈ evs,
      e.agents = a ∧ e.isUpdateAuthors = false ∧ e.isUpdateMetadata = false := by
  cases lo with
  | none =>
    simp only [licenseEvents, Except.ok.injEq] at h
    subst h; simp
  | some lic =>
    cases hu : lic.uri with
    | none => simp [licenseEvents, hu] at h
    | some uri =>
      simp only [licenseEvents, hu, Except.ok.injEq] at h
      subst h; simp [Event.isUpdateAuthors, Event.isUpdateMetadata]

theorem primaryEvents_ok {a : Agents} {co : Option ClassificationData}
    {evs : List Event} (h : primaryEvents a co = .ok evs) :
    ∀ e ∈ evs,
      e.agents = a ∧ e.isUpdateAuthors = false ∧ e.isUpdateMetadata = false := by
  cases co with
  | none =>
    simp only [primaryEvents, Except.ok.injEq] at h
    subst h; simp
  | some c =>
    cases hc : c.category with
    | none => simp [primaryEvents, hc] at h
    | some cat =>
      simp only [primaryEvents, hc, Except.ok.injEq] at h
      subst h; simp [Event.isUpdateAuthors, Event.isUpdateMetadata]

theorem secondaryEvents_ok {a : Agents} :
    ∀ {l : List ClassificationData} {evs : List Event},
      secondaryEvents a l = .ok evs →
      ∀ e ∈ evs,
        e.agents = a ∧ e.isUpdateAuthors = false ∧ e.isUpdateMetadata = false := by
  intro l
  induction l with
  | nil =>
    intro evs h
    simp only [secondaryEvents, Except.ok.injEq] at h
    subst h; simp
  | cons c rest ih =>
    intro evs h
    cases hc : c.category with
    | none => simp [secondaryEvents, hc] at h
    | some cat =>
      simp only [secondaryEvents, hc, Bind.bind, Except.bind] at h
      cases hrest : secondaryEvents a rest with
      | error e => rw [hrest] at h; simp at h
      | ok evsRest =>
        rw [hrest] at h
        simp only [Pure.pure, Except.pure, Except.ok.injEq] at h
        subst h
        intro e he
        rcases List.mem_cons.mp he with rfl | he2
        · simp [Event.isUpdateAuthors, Event.isUpdateMetadata]
        · exact ih hrest e he2

theorem metadataEvents_agents (a : Agents) (m : Option MetadataData) :
    ∀ e ∈ (metadataEvents a m).1, e.agents = a := by
  cases m with
  | none => simp [metadataEvents]
  | some md =>
    cases hau : md.authors with
    | none => simp [metadataEvents, hau]
    | some authors => simp [metadataEvents, hau]

theorem metadataEvents_snd (a : Agents) (m : Option MetadataData) :
    (metadataEvents a m).2 =
      m.map (fun md => { md with authors := md.authors.map assignOrders }) := by
  cases m with
  | none => simp [metadataEvents]
  | some md =>
    obtain ⟨flds, au⟩ := md
    cases au with
    | none => simp [metadataEvents]
    | some authors => simp [metadataEvents]

theorem assignOrders_getElem? (l : List AuthorData) (i : Nat) :
    (assignOrders l)[i]? = l[i]?.map (fun au =>
      match au.order with
      | none => { au with order := some i }
      | some _ => au) := by
  simp only [assignOrders, List.getElem?_map, List.getElem?_enum,
    Option.map_map]
  rfl

theorem assignOrders_length (l : List AuthorData) :
    (assignOrders l).length = l.length := by
  simp [assignOrders, List.enum_length]

theorem assignOrders_eq_self {l : List AuthorData}
    (h : ∀ au ∈ l, au.order ≠ none) : assignOrders l = l := by
  apply List.ext_getElem?
  intro i
  rw [assignOrders_getElem?]
  cases hg : l[i]? with
  | none => rfl
  | some au =>
    have hmem : au ∈ l := List.getElem?_mem hg
    cases hau : au.order with
    | none => exact absurd hau (h au hmem)
    | some o => simp [hau]

theorem filterMap_lookup_keys (m : List (String × String)) :
    ∀ l : List String,
      (l.filterMap (fun key => (m.lookup key).map (fun v => (key, v)))).map
          Prod.fst =
        l.filter (fun key => (m.lookup key).isSome) := by
  intro l
  induction l with
  | nil => simp
  | cons k rest ih =>
    cases hk : m.lookup k with
    | none => simp [List.filterMap_cons, hk, List.filter_cons, ih]
    | some v => simp [List.filterMap_cons, hk, List.filter_cons, ih]

theorem metadataPairs_keys (m : List (String × String)) :
    (metadataPairs m).map Prod.fst =
      FIELDS.filter (fun key => (m.lookup key).isSome) :=
  filterMap_lookup_keys m FIELDS

theorem lookup_isSome_iff (k : String) :
    ∀ m : List (String × String),
      (m.lookup k).isSome = true ↔ k ∈ m.map Prod.fst := by
  intro m
  induction m with
  | nil => simp [List.lookup]
  | cons kv rest ih =>
    obtain ⟨k0, v0⟩ := kv
    cases hk : (k == k0) with
    | true =>
      have : k = k0 := eq_of_beq hk
      subst this
      simp [List.lookup, hk]
    | false =>
      simp only [List.lookup, hk, List.map_cons, List.mem_cons]
      rw [ih]
      constructor
      · exact fun h2 => Or.inr h2
      · rintro (rfl | h2)
        · rw [beq_self_eq_true] at hk; cases hk
        · exact h2

theorem _update_submission_agents {data : Document} {u : User} {c : Client}
    {p : Option User} {evs : List Event} {d2 : Document}
    (h : _update_submission data u c p = .ok (evs, d2)) :
    ∀ e ∈ evs, e.agents = ⟨u, c, p⟩ := by
  obtain ⟨evsL, evsP, evsS, hL, hP, hS, hevs, -⟩ := _update_submission_ok h
  subst hevs
  intro e he
  simp only [List.append_assoc, List.mem_append] at he
  rcases he with he | he | he | he | he | he
  · exact (authorship_block_spec ⟨u, c, p⟩ data.submitter_is_author e he).1
  · exact (licenseEvents_ok hL e he).1
  · exact (policy_block_spec ⟨u, c, p⟩ data.submitter_accepts_policy e he).1
  · exact (primaryEvents_ok hP e he).1
  · exact (secondaryEvents_ok hS e he).1
  · exact metadataEvents_agents ⟨u, c, p⟩ data.metadata e he

theorem _update_submission_filter {data : Document} {u : User} {c : Client}
    {p : Option User} {evs : List Event} {d2 : Document}
    (h : _update_submission data u c p = .ok (evs, d2)) (pr : Event → Bool)
    (hpr : ∀ e : Event, e.isUpdateAuthors = false → e.isUpdateMetadata = false →
      pr e = false) :
    evs.filter pr = ((metadataEvents ⟨u, c, p⟩ data.metadata).1).filter pr := by
  obtain ⟨evsL, evsP, evsS, hL, hP, hS, hevs, -⟩ := _update_submission_ok h
  subst hevs
  have n1 : (((match data.submitter_is_author with
               | some b => [Event.mk ⟨u, c, p⟩ (.assertAuthorship b)]
               | none => []) : List Event)).filter pr = [] :=
    List.filter_eq_nil_iff.mpr (fun e he => by
      obtain ⟨-, ha, hm⟩ := authorship_block_spec ⟨u, c, p⟩
        data.submitter_is_author e he
      simp [hpr e ha hm])
  have n2 : evsL.filter pr = [] :=
    List.filter_eq_nil_iff.mpr (fun e he => by
      obtain ⟨-, ha, hm⟩ := licenseEvents_ok hL e he
      simp [hpr e ha hm])
  have n3 : (((match data.submitter_accepts_policy with
               | some true => [Event.mk ⟨u, c, p⟩ .acceptPolicy]
               | _ => []) : List Event)).filter pr = [] :=
    List.filter_eq_nil_iff.mpr (fun e he => by
      obtain ⟨-, ha, hm⟩ := policy_block_spec ⟨u, c, p⟩
        data.submitter_accepts_policy e he
      simp [hpr e ha hm])
  have n4 : evsP.filter pr = [] :=
    List.filter_eq_nil_iff.mpr (fun e he => by
      obtain ⟨-, ha, hm⟩ := primaryEvents_ok hP e he
      simp [hpr e ha hm])
  have n5 : evsS.filter pr = [] :=
    List.filter_eq_nil_iff.mpr (fun e he => by
      obtain ⟨-, ha, hm⟩ := secondaryEvents_ok hS e he
      simp [hpr e ha hm])
  simp only [List.filter_append, n1, n2, n3, n4, n5, List.nil_append]

theorem compile_license_keyError {data : Document} {lic : LicenseData}
    (h1 : data.license = some lic) (h2 : lic.uri = none)
    (u : User) (c : Client) (p : Option User) :
    _update_submission data u c p = .error (.keyError "uri") := by
  unfold _update_submission
  simp only [Bind.bind, Except.bind, h1]
  simp [licenseEvents, h2]

/-! ## Claim theorems -/

/-- C1: per the spec taxonomy and the repository's own tests, a store-level
validation rejection (`ev.InvalidEvent`) on create or update should surface
as a client-fault (BadRequest) ValidationError; the code, evaluated here at
the failing input, instead raises `InternalServerError` (a server fault) in
both operations. -/
theorem c1_invalid_event_surfaces_server_fault :
    create_submission (fun _ => .exc (.invalidEvent "foo"))
        { primary_classification := some { category := some "astro-ph" } }
        [] { user_id := "1234", email := "foo@bar.baz" }
        { client_id := "5678" } "tok" =
      (.error (.internalServerError "foo"), []) ∧
    update_submission (fun _ _ => .exc (.invalidEvent "foo"))
        { primary_classification := some { category := some "astro-ph" } }
        [] { user_id := "1234", email := "foo@bar.baz" }
        { client_id := "5678" } "tok" "1" =
      (.error (.internalServerError "foo"), []) :=
  ⟨rfl, rfl⟩

/-- C4: for every create request whose compilation succeeds, the event list
submitted to the store is nonempty and has the `CreateSubmission` event,
carrying the request's attribution triple, at index 0. -/
theorem c4_create_prepends_create_submission {data : Document} {u : User}
    {c : Client} {p : Option User} {evs : List Event}
    (h : create_event_list data u c p = .ok evs) :
    evs.head? = some (Event.mk ⟨u, c, p⟩ .createSubmission) ∧ evs ≠ [] := by
  unfold create_event_list at h
  cases hu : _update_submission data u c p with
  | error e => rw [hu] at h; simp [Except.map] at h
  | ok r =>
    rw [hu] at h
    simp only [Except.map, Except.ok.injEq] at h
    subst h
    exact ⟨rfl, by simp⟩

/-- Witness for C4 at the empty document. -/
theorem c4_create_prepends_create_submission_witness :
    ([Event.mk exAgents .createSubmission] : List Event).head? =
        some (Event.mk exAgents .createSubmission) ∧
      ([Event.mk exAgents .createSubmission] : List Event) ≠ [] :=
  c4_create_prepends_create_submission
    (show create_event_list {} exUser exClient none =
        .ok [Event.mk exAgents .createSubmission] from rfl)

/-- C5: with the `X-On-Behalf-Of` header present, `_get_agents` returns a
creator built solely from the header value (empty email, no endorsements),
the authenticated user as proxy, and the calling application as client;
without the header, the authenticated user is the creator and the proxy is
absent. -/
theorem c5_get_agents_delegation (headers : List (String × String))
    (ud : UserData) (cd : ClientData) (v : String) :
    (headers.lookup "X-On-Behalf-Of" = some v →
      _get_agents headers ud cd =
        ({ native_id := v, email := "", forename := "", endorsements := [] },
         { native_id := cd.client_id },
         some { native_id := ud.user_id, email := ud.email })) ∧
    (headers.lookup "X-On-Behalf-Of" = none →
      _get_agents headers ud cd =
        ({ native_id := ud.user_id, email := ud.email },
         { native_id := cd.client_id }, none)) := by
  constructor <;> intro h <;> simp [_get_agents, h]

/-- Witness for C5: a delegated and an undelegated request. -/
theorem c5_get_agents_delegation_witness :
    _get_agents [("X-On-Behalf-Of", "u2")]
        { user_id := "1234", email := "foo@bar.baz" }
        { client_id := "5678" } =
      ({ native_id := "u2", email := "", forename := "", endorsements := [] },
       { native_id := "5678" },
       some { native_id := "1234", email := "foo@bar.baz" }) ∧
    _get_agents [] { user_id := "1234", email := "foo@bar.baz" }
        { client_id := "5678" } =
      ({ native_id := "1234", email := "foo@bar.baz" },
       { native_id := "5678" }, none) :=
  ⟨(c5_get_agents_delegation [("X-On-Behalf-Of", "u2")]
      { user_id := "1234", email := "foo@bar.baz" }
      { client_id := "5678" } "u2").1 rfl,
   (c5_get_agents_delegation []
      { user_id := "1234", email := "foo@bar.baz" }
      { client_id := "5678" } "u2").2 rfl⟩

/-- C6: every event produced from one request — the compiled events on
update and additionally the prepended `CreateSubmission` on create —
carries the identical attribution triple. -/
theorem c6_events_share_attribution (data : Document) (u : User) (c : Client)
    (p : Option User) :
    (∀ evs, create_event_list data u c p = .ok evs →
      ∀ e ∈ evs, e.agents = ⟨u, c, p⟩) ∧
    (∀ evs d2, _update_submission data u c p = .ok (evs, d2) →
      ∀ e ∈ evs, e.agents = ⟨u, c, p⟩) := by
  constructor
  · intro evs h e he
    unfold create_event_list at h
    cases hu : _update_submission data u c p with
    | error er => rw [hu] at h; simp [Except.map] at h
    | ok r =>
      rw [hu] at h
      simp only [Except.map, Except.ok.injEq] at h
      subst h
      rcases List.mem_cons.mp he with rfl | he2
      · rfl
      · exact _update_submission_agents
          (show _update_submission data u c p = .ok (r.1, r.2) by rw [hu]) e he2
  · intro evs d2 h e he
    exact _update_submission_agents h e he

/-- Witness for C6 at the primary-classification document of the spec's
scenario. -/
theorem c6_events_share_attribution_witness :
    (Event.mk exAgents (.setPrimaryClassification "astro-ph.GA")).agents =
      exAgents :=
  (c6_events_share_attribution
      { primary_classification := some { category := some "astro-ph.GA" } }
      exUser exClient none).1
    [Event.mk exAgents .createSubmission,
     Event.mk exAgents (.setPrimaryClassification "astro-ph.GA")]
    rfl
    (Event.mk exAgents (.setPrimaryClassification "astro-ph.GA"))
    (List.mem_cons.mpr (Or.inr (List.mem_singleton.mpr rfl)))

/-- C10: `get_submission` never reads its `user`, `client` or `token`
arguments — for a fixed store behaviour and submission id the result is
identical across any two credential argument triples. -/
theorem c10_get_ignores_credentials (load : String → StoreResult)
    (submission_id : String) (u1 c1 t1 u2 c2 t2 : Option String) :
    get_submission load submission_id u1 c1 t1 =
      get_submission load submission_id u2 c2 t2 := rfl

/-- C2 counterexample: at a concrete update document whose `license` lacks
`uri`, compilation fails with a `KeyError`, which the create operation
surfaces as a generic unhandled-exception server fault — not as a
compiler-level ValidationError (client fault) as claimed. -/
theorem c2_license_missing_uri_counterexample :
    _update_submission { license := some { name := some "cc-by" } }
        exUser exClient none =
      .error (.keyError "uri") ∧
    create_submission (fun _ => .exc (.other "unreached" ""))
        { license := some { name := some "cc-by" } } []
        { user_id := "1234", email := "foo@bar.baz" } { client_id := "5678" }
        "tok" =
      (.error (.internalServerError "Encountered unhandled exception"),
       ["Unhandled exception: (KeyError) uri"]) :=
  ⟨rfl, rfl⟩

/-- C2 (amended): for every document whose `license` key is present but
lacks `uri`, compilation fails with a `KeyError` on `uri` — emitting no
events — and both create and update surface it through their generic
exception handler as a logged unhandled-exception server fault. -/
theorem c2_license_missing_uri_keyerror {data : Document} {lic : LicenseData}
    (h1 : data.license = some lic) (h2 : lic.uri = none) :
    (∀ u c p, _update_submission data u c p = .error (.keyError "uri")) ∧
    (∀ save headers ud cd tok,
      create_submission save data headers ud cd tok =
        (.error (.internalServerError "Encountered unhandled exception"),
         [logLine "KeyError" "uri"])) ∧
    (∀ save headers ud cd tok sid,
      update_submission save data headers ud cd tok sid =
        (.error (.internalServerError "Encountered unhandled exception"),
         [logLine "KeyError" "uri"])) := by
  refine ⟨fun u c p => compile_license_keyError h1 h2 u c p, ?_, ?_⟩
  · intro save headers ud cd tok
    rcases hag : _get_agents headers ud cd with ⟨u, c, p⟩
    simp [create_submission, hag, create_event_list,
      compile_license_keyError h1 h2 u c p, Except.map]
  · intro save headers ud cd tok sid
    rcases hag : _get_agents headers ud cd with ⟨u, c, p⟩
    simp [update_submission, hag, compile_license_keyError h1 h2 u c p]

/-- Witness for the amended C2 at a concrete license-without-uri document. -/
theorem c2_license_missing_uri_keyerror_witness :
    _update_submission { license := some { name := some "cc-by" } }
        exUser exClient none =
      .error (.keyError "uri") :=
  (@c2_license_missing_uri_keyerror
      { license := some { name := some "cc-by" } }
      { name := some "cc-by" } rfl rfl).1 exUser exClient none

/-- C3 counterexample: compiling a concrete document whose single author
lacks `order` returns a post-state document that differs from the input —
the author mapping has been mutated in place (`order` assigned), so the
input document is not unchanged after the call. -/
theorem c3_compile_mutates_document_counterexample :
    _update_submission
        { metadata := some { fields := [],
                             authors := some [{ forename := some "Jane" }] } }
        exUser exClient none =
      .ok ([Event.mk exAgents (.updateMetadata []),
            Event.mk exAgents (.updateAuthors
              [{ forename := some "Jane", order := some 0 }])],
           { metadata :=
               some { fields := [],
                      authors := some [{ forename := some "Jane",
                                         order := some 0 }] } }) ∧
    ({ metadata :=
         some { fields := [],
                authors := some [{ forename := some "Jane",
                                   order := some 0 }] } } : Document) ≠
      { metadata := some { fields := [],
                           authors := some [{ forename := some "Jane" }] } } :=
  ⟨rfl, by decide⟩

/-- C3 (amended): compilation is deterministic and returns the event list,
but it mutates the input document exactly where the authors loop assigns
the defaulted `order` in place: the post-state document equals the input
with each author entry lacking `order` given its zero-based position, and a
document all of whose author entries already carry `order` is returned
unchanged. -/
theorem c3_compile_poststate {data : Document} {u : User} {c : Client}
    {p : Option User} {evs : List Event} {d2 : Document}
    (h : _update_submission data u c p = .ok (evs, d2)) :
    d2 = { data with
           metadata := data.metadata.map
                         (fun md => { md with
                                      authors := md.authors.map assignOrders }) } ∧
    ((∀ md, data.metadata = some md →
        ∀ authors, md.authors = some authors →
          ∀ au ∈ authors, au.order ≠ none) →
      d2 = data) := by
  obtain ⟨evsL, evsP, evsS, hL, hP, hS, hevs, hd2⟩ := _update_submission_ok h
  have hsnd := metadataEvents_snd ⟨u, c, p⟩ data.metadata
  constructor
  · rw [hd2, hsnd]
  · intro hall
    rw [hd2, hsnd]
    cases hm : data.metadata with
    | none => cases data; simp_all
    | some md =>
      obtain ⟨flds, au⟩ := md
      cases au with
      | none => cases data; simp_all
      | some authors =>
        have hfix : assignOrders authors = authors :=
          assignOrders_eq_self (hall ⟨flds, some authors⟩ hm authors rfl)
        cases data
        simp_all

/-- Witness for the amended C3 at a document whose author mapping lacks
`order`: the post-state carries `order = 0`. -/
theorem c3_compile_poststate_witness :
    ({ metadata :=
         some { fields := [],
                authors := some [{ forename := some "Jane",
                                   order := some 0 }] } } : Document) =
      { metadata :=
          some { fields := [],
                 authors := some [{ forename := some "Jane",
                                    order := some 0 }] } } :=
  (@c3_compile_poststate
      { metadata := some { fields := [],
                           authors := some [{ forename := some "Jane" }] } }
      exUser exClient none
      [Event.mk exAgents (.updateMetadata []),
       Event.mk exAgents (.updateAuthors
         [{ forename := some "Jane", order := some 0 }])]
      { metadata :=
          some { fields := [],
                 authors := some [{ forename := some "Jane",
                                    order := some 0 }] } }
      rfl).1

/-- C9: when the store raises an exception that is none of the recognized
kinds, each of create, update and get logs the exception's type and message
and returns the generic unhandled-exception server fault, exposing no
detail of the collaborator error. -/
theorem c9_unhandled_exception_logged {headers : List (String × String)}
    {ud : UserData} {cd : ClientData} {u : User} {c : Client}
    {p : Option User} {data : Document} {evs : List Event} {d2 : Document}
    (ty msg tok sid : String)
    (hag : _get_agents headers ud cd = (u, c, p))
    (h : _update_submission data u c p = .ok (evs, d2)) :
    create_submission (fun _ => .exc (.other ty msg)) data headers ud cd tok =
      (.error (.internalServerError "Encountered unhandled exception"),
       [logLine ty msg]) ∧
    update_submission (fun _ _ => .exc (.other ty msg)) data headers ud cd
        tok sid =
      (.error (.internalServerError "Encountered unhandled exception"),
       [logLine ty msg]) ∧
    ∀ uO cO tO,
      get_submission (fun _ => .exc (.other ty msg)) sid uO cO tO =
        (.error (.internalServerError "Encountered unhandled exception"),
         [logLine ty msg]) := by
  refine ⟨?_, ?_, ?_⟩
  · simp [create_submission, hag, create_event_list, h, Except.map,
      StoreExc.typeName, StoreExc.message]
  · simp [update_submission, hag, h]
  · intro uO cO tO
    simp [get_submission, StoreExc.typeName, StoreExc.message]

/-- Witness for C9 at the empty document and a concrete unrecognized
exception. -/
theorem c9_unhandled_exception_logged_witness :
    get_submission (fun _ => .exc (.other "RuntimeError" "boom")) "1"
        none none none =
      (.error (.internalServerError "Encountered unhandled exception"),
       [logLine "RuntimeError" "boom"]) :=
  (@c9_unhandled_exception_logged []
      { user_id := "1234", email := "foo@bar.baz" } { client_id := "5678" }
      exUser exClient none {} [] {}
      "RuntimeError" "boom" "tok" "1" rfl rfl).2.2 none none none

/-- C7: when `metadata.authors` is present, compilation emits exactly one
`UpdateAuthors` event carrying the full processed author list in input
order; each entry lacking `order` receives its zero-based position in the
supplied list and each entry specifying `order` keeps it unchanged. -/
theorem c7_update_authors_orders {data : Document} {u : User} {c : Client}
    {p : Option User} {md : MetadataData} {authors : List AuthorData}
    {evs : List Event} {d2 : Document}
    (hmd : data.metadata = some md) (hau : md.authors = some authors)
    (h : _update_submission data u c p = .ok (evs, d2)) :
    evs.filter Event.isUpdateAuthors =
      [Event.mk ⟨u, c, p⟩ (.updateAuthors (assignOrders authors))] ∧
    (assignOrders authors).length = authors.length ∧
    (∀ (i : Nat) (au : AuthorData), authors[i]? = some au →
      au.order = none →
      (assignOrders authors)[i]? = some { au with order := some i }) ∧
    (∀ (i : Nat) (au : AuthorData), authors[i]? = some au →
      ∀ o, au.order = some o →
      (assignOrders authors)[i]? = some au) := by
  refine ⟨?_, assignOrders_length authors, ?_, ?_⟩
  · rw [_update_submission_filter h Event.isUpdateAuthors
      (fun e ha hm => ha)]
    simp [metadataEvents, hmd, hau, Event.isUpdateAuthors]
  · intro i au hga hor
    rw [assignOrders_getElem?, hga]
    simp [hor]
  · intro i au hga o hor
    rw [assignOrders_getElem?, hga]
    simp [hor]

/-- Witness for C7 at a two-author list mixing an omitted and an explicit
`order`. -/
theorem c7_update_authors_orders_witness :
    ([Event.mk exAgents (.updateMetadata []),
      Event.mk exAgents (.updateAuthors
        [{ forename := some "Jane", order := some 0 },
         { surname := some "Doe", order := some 7 }])] : List Event).filter
        Event.isUpdateAuthors =
      [Event.mk exAgents (.updateAuthors
        [{ forename := some "Jane", order := some 0 },
         { surname := some "Doe", order := some 7 }])] :=
  (@c7_update_authors_orders
      { metadata :=
          some { fields := [],
                 authors := some [{ forename := some "Jane" },
                                  { surname := some "Doe",
                                    order := some 7 }] } }
      exUser exClient none
      { fields := [],
        authors := some [{ forename := some "Jane" },
                         { surname := some "Doe", order := some 7 }] }
      [{ forename := some "Jane" },
       { surname := some "Doe", order := some 7 }]
      [Event.mk exAgents (.updateMetadata []),
       Event.mk exAgents (.updateAuthors
         [{ forename := some "Jane", order := some 0 },
          { surname := some "Doe", order := some 7 }])]
      { metadata :=
          some { fields := [],
                 authors := some [{ forename := some "Jane",
                                    order := some 0 },
                                  { surname := some "Doe",
                                    order := some 7 }] } }
      rfl rfl rfl).1

/-- C8: when the `metadata` key is present, compilation emits exactly one
`UpdateMetadata` event — even when the restricted field set is empty —
whose keys are exactly the input metadata keys restricted to the fixed
recognized-field allow-list; unrecognized keys are dropped, not errors. -/
theorem c8_update_metadata_allowlist {data : Document} {u : User}
    {c : Client} {p : Option User} {md : MetadataData} {evs : List Event}
    {d2 : Document} (hmd : data.metadata = some md)
    (h : _update_submission data u c p = .ok (evs, d2)) :
    evs.filter Event.isUpdateMetadata =
      [Event.mk ⟨u, c, p⟩ (.updateMetadata (metadataPairs md.fields))] ∧
    ∀ k, k ∈ (metadataPairs md.fields).map Prod.fst ↔
      (k ∈ FIELDS ∧ k ∈ md.fields.map Prod.fst) := by
  constructor
  · rw [_update_submission_filter h Event.isUpdateMetadata
      (fun e ha hm => hm)]
    cases hau : md.authors with
    | none => simp [metadataEvents, hmd, hau, Event.isUpdateMetadata]
    | some authors =>
      simp [metadataEvents, hmd, hau, Event.isUpdateMetadata]
  · intro k
    rw [metadataPairs_keys, List.mem_filter]
    constructor
    · rintro ⟨hk, hsome⟩
      exact ⟨hk, (lookup_isSome_iff k md.fields).mp hsome⟩
    · rintro ⟨hk, hmem⟩
      exact ⟨hk, (lookup_isSome_iff k md.fields).mpr hmem⟩

/-- Witness for C8 at a metadata dict with one recognized and one
unrecognized key. -/
theorem c8_update_metadata_allowlist_witness :
    ([Event.mk exAgents
        (.updateMetadata [("title", "foo")])] : List Event).filter
        Event.isUpdateMetadata =
      [Event.mk exAgents (.updateMetadata [("title", "foo")])] :=
  (@c8_update_metadata_allowlist
      { metadata := some { fields := [("title", "foo"), ("junk", "x")] } }
      exUser exClient none
      { fields := [("title", "foo"), ("junk", "x")] }
      [Event.mk exAgents (.updateMetadata [("title", "foo")])]
      { metadata := some { fields := [("title", "foo"), ("junk", "x")] } }
      rfl rfl).1

end ArxivSubmissionApi
